import Mathlib

/-!
# Verification of the b2client resilient-request layer

Shallow embedding of the `b2` Go package's retry orchestration layer
(`retry_client.go`, `operations.go`, `errors.go`) and of the streaming
content-hash reader (`readers.go`), with theorems settling the frozen
claims about the natural-language specification.

Durations are modelled as `Int` nanoseconds (Go's `time.Duration` is an
`int64` nanosecond count); `time.Second = 1000000000`.
-/

set_option maxRecDepth 100000

namespace B2

/-- One second, in nanoseconds, as in Go's `time.Second`. -/
def oneSecond : Int := 1000000000

/-- Two's-complement wraparound of Go `int64` arithmetic. -/
def wrap64 (x : Int) : Int := (x + 2 ^ 63) % 2 ^ 64 - 2 ^ 63

/-- `RetryConfig` from `operations.go`: attempt bound and backoff shape knobs.
All durations are `int64` nanoseconds. -/
structure RetryConfig where
  MaxAttempts : Nat
  Jitter : Int
  Min : Int
  Max : Int
  Unit : Int
deriving Repr, DecidableEq

/-- `RetryConfig.getMaxAttempts`: defaults to 3 when the field is zero. -/
def RetryConfig.getMaxAttempts (rc : RetryConfig) : Nat :=
  if rc.MaxAttempts = 0 then 3 else rc.MaxAttempts

/-- `RetryConfig.getJitter`: defaults to one second when the field is zero. -/
def RetryConfig.getJitter (rc : RetryConfig) : Int :=
  if rc.Jitter = 0 then oneSecond else rc.Jitter

/-- `RetryConfig.getMin`, transcribed exactly from the source: when `Min` is
zero it returns one second, otherwise it returns the `Jitter` field
(`return rc.Jitter` in the source, not `rc.Min`). -/
def RetryConfig.getMin (rc : RetryConfig) : Int :=
  if rc.Min = 0 then 1 * oneSecond else rc.Jitter

/-- `RetryConfig.getUnit`: defaults to one second when the field is zero. -/
def RetryConfig.getUnit (rc : RetryConfig) : Int :=
  if rc.Unit = 0 then oneSecond else rc.Unit

/-- The deviation drawn inside `ExpBackoff`:
`dev := time.Duration(rand.Int63n(int64(maxDev*2+1)) + int64(maxDev))`.
`r` models the value returned by `rand.Int63n(maxDev*2+1)`, which for
`maxDev ≥ 0` lies in `[0, 2*maxDev]`. -/
def expBackoffDev (maxDev r : Int) : Int := r + maxDev

/-- The pre-clamp value computed by `ExpBackoff`:
`value := time.Duration(math.Pow(2, float64(attempt))) + dev; value *= unit`.
`math.Pow(2, float64 attempt)` converted to `int64` is exactly `2^attempt`
for `attempt ≤ 62`; both int64 operations wrap on overflow. -/
def expBackoffPre (attempt : Nat) (maxDev unit r : Int) : Int :=
  wrap64 (wrap64 (2 ^ attempt + expBackoffDev maxDev r) * unit)

/-- `ExpBackoff` from `operations.go`: pre-clamp value, then
`if value < min then min`, then `if max != 0 && value > max then max`. -/
def ExpBackoff (attempt : Nat) (maxDev min max unit r : Int) : Int :=
  let value := expBackoffPre attempt maxDev unit r
  if value < min then min
  else if max ≠ 0 ∧ value > max then max
  else value

/-- C7: for every attempt, jitter span ≥ 0, unit > 0 and random draw in the
range `rand.Int63n` can produce, the delay returned by `ExpBackoff` is at
least `min`, at most `max` when `max ≠ 0` (under the interval-validity
assumption `min ≤ max` that `[min, max]` presupposes), and never negative
when `min` is non-negative. -/
theorem expBackoff_clamped_range (attempt : Nat) (maxDev min max unit r : Int)
    (hdev : 0 ≤ maxDev) (hunit : 0 < unit) (hr0 : 0 ≤ r) (hr1 : r ≤ 2 * maxDev)
    (hmin : 0 ≤ min) (hmm : max = 0 ∨ min ≤ max) :
    min ≤ ExpBackoff attempt maxDev min max unit r ∧
      0 ≤ ExpBackoff attempt maxDev min max unit r ∧
      (max ≠ 0 → ExpBackoff attempt maxDev min max unit r ≤ max) := by
  unfold ExpBackoff
  set value := expBackoffPre attempt maxDev unit r with hv
  by_cases h1 : value < min
  · rw [if_pos h1]
    refine ⟨le_refl min, hmin, fun hmax => ?_⟩
    rcases hmm with h | h
    · exact absurd h hmax
    · exact h
  · rw [if_neg h1]
    push_neg at h1
    by_cases h2 : max ≠ 0 ∧ value > max
    · rw [if_pos h2]
      rcases hmm with h | h
      · exact absurd h h2.1
      · exact ⟨h, le_trans hmin h, fun _ => le_refl max⟩
    · rw [if_neg h2]
      refine ⟨h1, le_trans hmin h1, fun hmax => ?_⟩
      by_contra hgt
      push_neg at hgt
      exact h2 ⟨hmax, hgt⟩

/-- Witness for C7 at attempt 1, jitter span 1, min 5, max 100, unit 2,
random draw 0. -/
theorem expBackoff_clamped_range_witness :
    (5 : Int) ≤ ExpBackoff 1 1 5 100 2 0 ∧
      0 ≤ ExpBackoff 1 1 5 100 2 0 ∧
      ((100 : Int) ≠ 0 → ExpBackoff 1 1 5 100 2 0 ≤ 100) :=
  expBackoff_clamped_range 1 1 5 100 2 0 (by decide) (by decide) (by decide)
    (by decide) (by decide) (Or.inr (by decide))

/-- C4 (refutation at a concrete input): with jitter span 1 and random draw
2 — a value `rand.Int63n(1*2+1)` can produce — the deviation actually added
is `2 + 1 = 3` and the pre-clamp delay at attempt 0 and unit 1 is `4`, which
is not of the form `(2^0 + d) * 1` for any `d` in the symmetric interval
`[-1, 1]`: the code adds `maxDev` to the draw instead of subtracting it, so
the deviation lies in `[maxDev, 3*maxDev]`, contradicting the code's own
doc comment `amt = (2^attempt + rand(-maxDev, maxDev)) * unit`. -/
theorem expBackoffDev_not_symmetric :
    expBackoffDev 1 2 = 3 ∧ expBackoffPre 0 1 1 2 = 4 ∧
      ¬ ∃ d : Int, -1 ≤ d ∧ d ≤ 1 ∧ expBackoffPre 0 1 1 2 = (2 ^ (0 : Nat) + d) * 1 := by
  refine ⟨by decide, by decide, ?_⟩
  rintro ⟨d, h1, h2, h3⟩
  have h4 : expBackoffPre 0 1 1 2 = 4 := by decide
  rw [h4] at h3
  simp only [pow_zero, mul_one] at h3
  omega

/-- C5 (refutation at a concrete input): for the `RetryConfig` with
`Min = 2s` and `Jitter = 5s`, `getMin` returns the `Jitter` field (5s), not
the configured `Min` (2s): the effective minimum backoff depends on the
`Jitter` knob whenever `Min` is nonzero. -/
theorem getMin_returns_jitter_field :
    RetryConfig.getMin ⟨3, 5 * oneSecond, 2 * oneSecond, 0, 0⟩ = 5 * oneSecond ∧
      RetryConfig.getMin ⟨3, 5 * oneSecond, 2 * oneSecond, 0, 0⟩ ≠ 2 * oneSecond := by
  constructor
  · decide
  · decide

/-! ## The streaming content-hash reader (`readers.go`)

Bytes are modelled as `Nat` values (each `< 256` for meaningful inputs).
The underlying `io.ReadCloser` is modelled as the list of bytes it has left,
with `bytes.Buffer` read semantics (data never returned together with
end-of-stream; an empty buffer reports end-of-stream on any read with a
non-empty destination). The hash accumulator `H` is modelled by the list of
bytes written to it so far together with a digest function
`hashFn : List Nat → List Nat` standing for `H.Sum(nil)`. -/

/-- Left-rotation of a 32-bit word, as in `crypto/sha1`. -/
def rotl (n x : Nat) : Nat := ((x <<< n) ||| (x >>> (32 - n))) % 2 ^ 32

/-- Big-endian byte encoding of `v` into `n` bytes. -/
def beBytes : Nat → Nat → List Nat
  | 0, _ => []
  | n + 1, v => beBytes n (v / 256) ++ [v % 256]

/-- SHA-1 message padding: `0x80`, zeros to 56 mod 64, then the bit length
as an 8-byte big-endian value. Models `crypto/sha1` (Go standard library). -/
def sha1pad (msg : List Nat) : List Nat :=
  let len := msg.length
  let zeros := (119 - len % 64) % 64
  msg ++ [128] ++ List.replicate zeros 0 ++ beBytes 8 (8 * len)

/-- Big-endian 32-bit words of a byte list. -/
def toWords : List Nat → List Nat
  | b0 :: b1 :: b2 :: b3 :: rest =>
      (((b0 * 256 + b1) * 256 + b2) * 256 + b3) :: toWords rest
  | _ => []

/-- Extends the SHA-1 message schedule by `n` words; `ws` holds the words
produced so far, most recent first. -/
def sha1extend : Nat → List Nat → List Nat
  | 0, ws => ws
  | n + 1, ws =>
      sha1extend n
        (rotl 1 ((ws.getD 2 0) ^^^ (ws.getD 7 0) ^^^ (ws.getD 13 0) ^^^ (ws.getD 15 0)) :: ws)

/-- The 80-word SHA-1 message schedule of one 64-byte block. -/
def sha1schedule (block : List Nat) : List Nat :=
  (sha1extend 64 (toWords block).reverse).reverse

/-- SHA-1 round function, by round index. -/
def sha1f (t b c d : Nat) : Nat :=
  if t < 20 then (b &&& c) ||| ((b ^^^ 4294967295) &&& d)
  else if t < 40 then b ^^^ c ^^^ d
  else if t < 60 then (b &&& c) ||| (b &&& d) ||| (c &&& d)
  else b ^^^ c ^^^ d

/-- SHA-1 round constants, by round index. -/
def sha1k (t : Nat) : Nat :=
  if t < 20 then 0x5A827999
  else if t < 40 then 0x6ED9EBA1
  else if t < 60 then 0x8F1BBCDC
  else 0xCA62C1D6

/-- The five 32-bit words of SHA-1 chaining state. -/
structure Sha1State where
  a : Nat
  b : Nat
  c : Nat
  d : Nat
  e : Nat
deriving Repr, DecidableEq

/-- One SHA-1 round: `tw` is the pair of round index and schedule word. -/
def sha1round (st : Sha1State) (tw : Nat × Nat) : Sha1State :=
  let tmp := (rotl 5 st.a + sha1f tw.1 st.b st.c st.d + st.e + sha1k tw.1 + tw.2) % 2 ^ 32
  ⟨tmp, st.a, rotl 30 st.b, st.c, st.d⟩

/-- SHA-1 compression of one 64-byte block into the chaining state. -/
def sha1block (h : Sha1State) (block : List Nat) : Sha1State :=
  let ws := sha1schedule block
  let f := ws.enum.foldl sha1round h
  ⟨(h.a + f.a) % 2 ^ 32, (h.b + f.b) % 2 ^ 32, (h.c + f.c) % 2 ^ 32,
   (h.d + f.d) % 2 ^ 32, (h.e + f.e) % 2 ^ 32⟩

/-- Folds SHA-1 compression over consecutive 64-byte blocks; the fuel is an
upper bound on the block count, made structural for executability. -/
def sha1blocksF (h : Sha1State) : Nat → List Nat → Sha1State
  | 0, _ => h
  | n + 1, l =>
      if l = [] then h else sha1blocksF (sha1block h (l.take 64)) n (l.drop 64)

/-- SHA-1 digest (20 bytes) of a byte list, modelling Go's `crypto/sha1`. -/
def sha1 (msg : List Nat) : List Nat :=
  let padded := sha1pad msg
  let f := sha1blocksF ⟨0x67452301, 0xEFCDAB89, 0x98BADCFE, 0x10325476, 0xC3D2E1F0⟩
    (padded.length + 1) padded
  beBytes 4 f.a ++ beBytes 4 f.b ++ beBytes 4 f.c ++ beBytes 4 f.d ++ beBytes 4 f.e

/-- ASCII code of the lowercase hex digit for `d < 16`. -/
def hexDigit (d : Nat) : Nat := if d < 10 then 48 + d else 87 + d

/-- Lowercase hex encoding of a byte list as ASCII codes, modelling Go's
`fmt.Sprintf("%x", bytes)`: two lowercase hex digits per byte. -/
def hexBytes : List Nat → List Nat
  | [] => []
  | b :: bs => hexDigit (b / 16) :: hexDigit (b % 16) :: hexBytes bs

/-- The bytes of an ASCII string, for concrete test vectors. -/
def strBytes (s : String) : List Nat := s.data.map Char.toNat

/-- State of `HashedPostfixedReader` from `readers.go`: the remaining bytes
of the underlying reader `R`, the bytes fed to the accumulator `H` so far,
the `finished` flag, and the undelivered digest bytes `hexRem`. -/
structure HashedPostfixedReader where
  src : List Nat
  acc : List Nat
  finished : Bool
  hexRem : List Nat
deriving Repr, DecidableEq

/-- One read of up to `psize` bytes from the underlying source, with
`bytes.Buffer` semantics: a zero-length destination reads nothing and
reports no end-of-stream; an exhausted source reports end-of-stream with no
bytes; otherwise up to `psize` bytes are returned. -/
def srcRead (src : List Nat) (psize : Nat) : List Nat × Bool :=
  if psize = 0 then ([], false)
  else if src = [] then ([], true)
  else (src.take psize, false)

/-- `HashedPostfixedReader.Read` with a destination buffer of `psize` bytes.
Returns the bytes placed in the buffer, the end-of-stream flag (`io.EOF`),
and the updated reader. Mirrors `readers.go` line by line: the finished
branch serves from `hexRem` and reports end-of-stream exactly when `hexRem`
empties; otherwise the underlying read is hashed, and on underlying
end-of-stream the digest is hex-encoded and served into the remaining
buffer space. -/
def HashedPostfixedReader.read (hashFn : List Nat → List Nat)
    (r : HashedPostfixedReader) (psize : Nat) :
    (List Nat × Bool) × HashedPostfixedReader :=
  if r.finished then
    let served := r.hexRem.take psize
    let rem := r.hexRem.drop psize
    ((served, rem.isEmpty), { r with hexRem := rem })
  else
    let res := srcRead r.src psize
    let chunk := res.1
    let acc := r.acc ++ chunk
    let src := r.src.drop psize
    if res.2 then
      let hexAll := hexBytes (hashFn acc)
      let served := hexAll.take (psize - chunk.length)
      let rem := hexAll.drop (psize - chunk.length)
      ((chunk ++ served, rem.isEmpty),
        { src := src, acc := acc, finished := true, hexRem := rem })
    else
      ((chunk, false), { src := src, acc := acc, finished := false, hexRem := r.hexRem })

/-- `io/ioutil.ReadAll` over the reader with a fixed buffer of `k` bytes:
reads until end-of-stream, concatenating everything returned (including
bytes delivered together with end-of-stream). Structural fuel bounds the
number of read calls; `none` means the fuel ran out. -/
def readAll (hashFn : List Nat → List Nat) (k : Nat) :
    Nat → HashedPostfixedReader → Option (List Nat)
  | 0, _ => none
  | fuel + 1, r =>
    let step := r.read hashFn k
    if step.1.2 then some step.1.1
    else match readAll hashFn k fuel step.2 with
      | none => none
      | some rest => some (step.1.1 ++ rest)

/-- A sequence of reads with the given buffer sizes, collecting each call's
returned bytes and end-of-stream flag. -/
def readMany (hashFn : List Nat → List Nat) (r : HashedPostfixedReader) :
    List Nat → List (List Nat × Bool) × HashedPostfixedReader
  | [] => ([], r)
  | p :: ps =>
    let step := r.read hashFn p
    let rest := readMany hashFn step.2 ps
    (step.1 :: rest.1, rest.2)

/-- The hex encoding of a byte list has twice its length. -/
theorem hexBytes_length (l : List Nat) : (hexBytes l).length = 2 * l.length := by
  induction l with
  | nil => rfl
  | cons b bs ih => simp [hexBytes, ih]; omega

/-- One read in the finished state: serves from `hexRem` only, touching
neither the underlying source nor the hash accumulator. -/
theorem read_finished_eq (hashFn : List Nat → List Nat) (src acc rem : List Nat) (p : Nat) :
    HashedPostfixedReader.read hashFn ⟨src, acc, true, rem⟩ p =
      ((rem.take p, (rem.drop p).isEmpty), ⟨src, acc, true, rem.drop p⟩) := by
  simp [HashedPostfixedReader.read]

/-- One read in the initial phase with the underlying source exhausted:
finalizes the digest and serves its leading bytes. -/
theorem read_unfinished_nil_eq (hashFn : List Nat → List Nat) (acc rem0 : List Nat)
    (p : Nat) (hp : p ≠ 0) :
    HashedPostfixedReader.read hashFn ⟨[], acc, false, rem0⟩ p =
      (((hexBytes (hashFn acc)).take p, ((hexBytes (hashFn acc)).drop p).isEmpty),
        ⟨[], acc, true, (hexBytes (hashFn acc)).drop p⟩) := by
  simp [HashedPostfixedReader.read, srcRead, hp]

/-- One read in the initial phase with source bytes remaining: forwards up
to `p` source bytes and feeds them to the accumulator. -/
theorem read_unfinished_cons_eq (hashFn : List Nat → List Nat) (src acc rem0 : List Nat)
    (p : Nat) (hp : p ≠ 0) (hs : src ≠ []) :
    HashedPostfixedReader.read hashFn ⟨src, acc, false, rem0⟩ p =
      ((src.take p, false), ⟨src.drop p, acc ++ src.take p, false, rem0⟩) := by
  simp [HashedPostfixedReader.read, srcRead, hp, hs]

/-- Draining a reader that is already in the finished state yields exactly
its remaining digest bytes. -/
theorem readAll_finished (hashFn : List Nat → List Nat) (k : Nat) (hk : 1 ≤ k) :
    ∀ (fuel : Nat) (rem src acc : List Nat), rem.length + 1 ≤ fuel →
      readAll hashFn k fuel ⟨src, acc, true, rem⟩ = some rem := by
  intro fuel
  induction fuel with
  | zero => intro rem src acc h; omega
  | succ f ih =>
    intro rem src acc h
    rw [readAll, read_finished_eq]
    by_cases hrem : rem.drop k = []
    · have hlen : rem.length ≤ k := List.drop_eq_nil_iff.mp hrem
      simp [hrem, List.take_of_length_le hlen]
    · have hne : (rem.drop k).isEmpty = false := by
        simp [List.isEmpty_iff, hrem]
      have hrec : readAll hashFn k f ⟨src, acc, true, rem.drop k⟩ = some (rem.drop k) := by
        apply ih
        have h1 : rem ≠ [] := by
          intro hnil
          exact hrem (by simp [hnil])
        have h2 : 0 < rem.length := List.length_pos.mpr h1
        rw [List.length_drop]
        omega
      simp [hne, hrec, List.take_append_drop]

/-- Draining a reader in its initial phase yields the remaining source bytes
followed by the hex digest of everything hashed (the accumulated bytes and
the remaining source). -/
theorem readAll_unfinished (hashFn : List Nat → List Nat) (k : Nat) (hk : 1 ≤ k) :
    ∀ (fuel : Nat) (src acc rem0 : List Nat),
      src.length + (hexBytes (hashFn (acc ++ src))).length + 2 ≤ fuel →
      readAll hashFn k fuel ⟨src, acc, false, rem0⟩ =
        some (src ++ hexBytes (hashFn (acc ++ src))) := by
  intro fuel
  induction fuel with
  | zero => intro src acc rem0 h; omega
  | succ f ih =>
    intro src acc rem0 h
    have hk0 : k ≠ 0 := by omega
    by_cases hsrc : src = []
    · subst hsrc
      rw [readAll, read_unfinished_nil_eq hashFn acc rem0 k hk0]
      simp only [List.append_nil, List.length_nil, Nat.zero_add, List.nil_append] at h ⊢
      set hexAll := hexBytes (hashFn acc) with hhex
      by_cases hrem : hexAll.drop k = []
      · have hlen : hexAll.length ≤ k := List.drop_eq_nil_iff.mp hrem
        simp [hrem, List.take_of_length_le hlen]
      · have hne : (hexAll.drop k).isEmpty = false := by
          simp [List.isEmpty_iff, hrem]
        have hrec := readAll_finished hashFn k hk f (hexAll.drop k) [] acc (by
          have h1 : (hexAll.drop k).length ≤ hexAll.length := by
            rw [List.length_drop]; omega
          omega)
        simp [hne, hrec, List.take_append_drop]
    · have hlen1 : 0 < src.length := List.length_pos.mpr hsrc
      rw [readAll, read_unfinished_cons_eq hashFn src acc rem0 k hk0 hsrc]
      have hacc : (acc ++ src.take k) ++ src.drop k = acc ++ src := by
        rw [List.append_assoc, List.take_append_drop]
      have hrec : readAll hashFn k f ⟨src.drop k, acc ++ src.take k, false, rem0⟩ =
          some (src.drop k ++ hexBytes (hashFn ((acc ++ src.take k) ++ src.drop k))) := by
        apply ih
        rw [hacc, List.length_drop]
        omega
      rw [hacc] at hrec
      simp [hrec, ← List.append_assoc, List.take_append_drop]

/-- C3: for every finite underlying byte stream and every read buffer size
`k ≥ 1`, draining a `HashedPostfixedReader` yields exactly the original
bytes followed by the lowercase hex encoding of the digest of those bytes,
so the output length is the original length plus twice the digest size; and
with the SHA-1 accumulator, input "hello world" drains to "hello world"
followed by "2aae6c35c94fcfb415dbe95f408b9ce91ee846ed", and empty input
drains to "da39a3ee5e6b4b0d3255bfef95601890afd80709". -/
theorem hashedPostfixedReader_drain_spec :
    (∀ (hashFn : List Nat → List Nat) (src : List Nat) (k : Nat), 1 ≤ k →
      readAll hashFn k (src.length + (hexBytes (hashFn src)).length + 2)
          ⟨src, [], false, []⟩ = some (src ++ hexBytes (hashFn src)) ∧
        (src ++ hexBytes (hashFn src)).length = src.length + 2 * (hashFn src).length) ∧
    readAll sha1 512 53 ⟨strBytes "hello world", [], false, []⟩ =
      some (strBytes "hello world2aae6c35c94fcfb415dbe95f408b9ce91ee846ed") ∧
    readAll sha1 512 42 ⟨[], [], false, []⟩ =
      some (strBytes "da39a3ee5e6b4b0d3255bfef95601890afd80709") := by
  refine ⟨fun hashFn src k hk => ⟨?_, ?_⟩, by decide, by decide⟩
  · exact readAll_unfinished hashFn k hk _ src [] [] (by rw [List.nil_append])
  · rw [List.length_append, hexBytes_length]

/-- Witness for C3 at the stream `[1, 2, 3]` with buffer size 1 and the
SHA-1 digest function. -/
theorem hashedPostfixedReader_drain_spec_witness :
    readAll sha1 1 (([1, 2, 3] : List Nat).length + (hexBytes (sha1 [1, 2, 3])).length + 2)
        ⟨[1, 2, 3], [], false, []⟩ = some ([1, 2, 3] ++ hexBytes (sha1 [1, 2, 3])) ∧
      (([1, 2, 3] : List Nat) ++ hexBytes (sha1 [1, 2, 3])).length =
        ([1, 2, 3] : List Nat).length + 2 * (sha1 [1, 2, 3]).length :=
  hashedPostfixedReader_drain_spec.1 sha1 [1, 2, 3] 1 (by decide)

/-- C10: once the reader is in its finished state, no sequence of further
reads touches the underlying source or the hash accumulator, the reader
stays finished, the bytes served are drawn only from the remaining digest
buffer (their concatenation is an initial segment of it), and once that
buffer is empty every further read returns no bytes together with
end-of-stream. -/
theorem finished_reader_serves_only_digest (hashFn : List Nat → List Nat)
    (r : HashedPostfixedReader) (sizes : List Nat) (hf : r.finished = true) :
    ((readMany hashFn r sizes).2.src = r.src ∧
      (readMany hashFn r sizes).2.acc = r.acc ∧
      (readMany hashFn r sizes).2.finished = true ∧
      ∃ n, ((readMany hashFn r sizes).1.map Prod.fst).flatten = r.hexRem.take n) ∧
    (r.hexRem = [] →
      (readMany hashFn r sizes).2.hexRem = [] ∧
      ∀ q ∈ (readMany hashFn r sizes).1, q.1 = ([] : List Nat) ∧ q.2 = true) := by
  induction sizes generalizing r with
  | nil =>
    constructor
    · exact ⟨rfl, rfl, hf, 0, by simp [readMany]⟩
    · intro he
      refine ⟨he, ?_⟩
      intro q hq
      simp [readMany] at hq
  | cons p ps ih =>
    obtain ⟨src, acc, fin, rem⟩ := r
    simp only at hf
    subst hf
    have hstep := read_finished_eq hashFn src acc rem p
    have ihr := ih ⟨src, acc, true, rem.drop p⟩ rfl
    constructor
    · refine ⟨?_, ?_, ?_, ?_⟩
      · simp only [readMany, hstep]
        exact ihr.1.1
      · simp only [readMany, hstep]
        exact ihr.1.2.1
      · simp only [readMany, hstep]
        exact ihr.1.2.2.1
      · obtain ⟨n, hn⟩ := ihr.1.2.2.2
        refine ⟨p + n, ?_⟩
        simp only [readMany, hstep, List.map_cons, List.flatten_cons]
        rw [hn, List.take_add]
    · intro he
      subst he
      have hd : (([] : List Nat).drop p) = [] := by simp
      have ihr2 := ihr.2 (by simp)
      constructor
      · simp only [readMany, hstep]
        simpa [hd] using ihr2.1
      · intro q hq
        simp only [readMany, hstep] at hq
        rcases List.mem_cons.mp hq with hq | hq
        · subst hq
          simp
        · exact ihr2.2 q (by simpa [hd] using hq)

/-- Witness for C10 on a finished reader with source residue `[9]`,
accumulator `[7]`, digest remainder `[50, 97]`, and reads of sizes
`[1, 5, 2]`. -/
theorem finished_reader_serves_only_digest_witness :
    ((readMany (fun _ => []) ⟨[9], [7], true, [50, 97]⟩ [1, 5, 2]).2.src = [9] ∧
      (readMany (fun _ => []) ⟨[9], [7], true, [50, 97]⟩ [1, 5, 2]).2.acc = [7] ∧
      (readMany (fun _ => []) ⟨[9], [7], true, [50, 97]⟩ [1, 5, 2]).2.finished = true ∧
      ∃ n, ((readMany (fun _ => []) ⟨[9], [7], true, [50, 97]⟩ [1, 5, 2]).1.map
        Prod.fst).flatten = ([50, 97] : List Nat).take n) ∧
    (([50, 97] : List Nat) = [] →
      (readMany (fun _ => []) ⟨[9], [7], true, [50, 97]⟩ [1, 5, 2]).2.hexRem = [] ∧
      ∀ q ∈ (readMany (fun _ => []) ⟨[9], [7], true, [50, 97]⟩ [1, 5, 2]).1,
        q.1 = ([] : List Nat) ∧ q.2 = true) :=
  finished_reader_serves_only_digest (fun _ => []) ⟨[9], [7], true, [50, 97]⟩ [1, 5, 2] rfl

/-! ## The retry orchestration layer (`retry_client.go`, `errors.go`)

One logical `RetryClient` call is modelled as a deterministic loop over an
environment of oracles: the i-th result of each collaborator call
(`Client.Authorize`, the wrapped one-shot operation `f`,
`Client.GetUploadURL`, `Client.UploadFile`), the successive `rand.Int63n`
draws, and the context's cancellation time on a discrete clock that sleeps
advance. `none` as a collaborator result means success. -/

/-- Errors as the retry layer distinguishes them (`errors.go`):
an `*ErrorResponse` (HTTP status, API error code, optional server
retry-after), a transport error whose `Timeout()` reports true,
`io.ErrUnexpectedEOF`, or any other error. -/
inductive B2Error where
  | errorResponse (status : Nat) (code : String) (retryAfter : Int)
  | transportTimeout
  | unexpectedEOF
  | otherError
deriving Repr, DecidableEq

/-- `IsTimeoutErr` from `errors.go`: true for a transport timeout, and for
an `ErrorResponse` through its `Timeout()` method (status 408 or 429). -/
def IsTimeoutErr : B2Error → Bool
  | .errorResponse s _ _ => s == 408 || s == 429
  | .transportTimeout => true
  | _ => false

/-- The `err.(*ErrorResponse)` type assertion combined with
`IsForbidden()` (status 403). -/
def isForbiddenER : B2Error → Bool
  | .errorResponse s _ _ => s == 403
  | _ => false

/-- The `err.(*ErrorResponse)` type assertion combined with
`IsUnauthorized() && err.Code == ErrCodeExpiredAuthToken`. -/
def isExpiredAuthER : B2Error → Bool
  | .errorResponse s c _ => s == 401 && c == "expired_auth_token"
  | _ => false

/-- The `err.(*ErrorResponse)` type assertion combined with
`err.Status >= 500 && err.Status <= 599`. -/
def is5xxER : B2Error → Bool
  | .errorResponse s _ _ => 500 ≤ s && s ≤ 599
  | _ => false

/-- The `err.(*ErrorResponse)` type assertion combined with
`err.RetryAfter > 0`: the server-provided delay, when present. -/
def retryAfterER : B2Error → Int
  | .errorResponse _ _ ra => ra
  | _ => 0

/-- Whether the error is an `*ErrorResponse` at all. -/
def isER : B2Error → Bool
  | .errorResponse _ _ _ => true
  | _ => false

/-- The oracles driving one logical call: results of the i-th call to each
collaborator (`none` means that call succeeds), the stream of
`rand.Int63n` draws, and the time at which the caller's context is
cancelled (`none`: never). -/
structure Env where
  authRes : Nat → Option B2Error
  fRes : Nat → Option B2Error
  urlRes : Nat → Option B2Error
  uploadRes : Nat → Option B2Error
  rands : Nat → Int
  cancelAt : Option Int

/-- Observable state threaded through one logical call: a discrete clock
advanced by sleeps, whether the `Client` holds a cached auth token
(`Client.lastAuth != nil`), call counters for every collaborator, the
number of `InvalidateAuthorization` calls, and the number of random draws
consumed. -/
structure MState where
  time : Int
  lastAuth : Bool
  authCalls : Nat
  fCalls : Nat
  urlCalls : Nat
  uploadCalls : Nat
  invalidations : Nat
  draws : Nat
deriving Repr, DecidableEq

/-- Whether `ctx.Done()` is closed (and so `ctx.Err() != nil`) at the
state's current time. -/
def ctxCancelled (env : Env) (s : MState) : Bool :=
  match env.cancelAt with
  | none => false
  | some c => decide (c ≤ s.time)

/-- `time.Sleep(d)`: advances the clock by the full duration (a negative or
zero duration returns immediately). `time.Sleep` does not observe context
cancellation, so the clock always advances by all of `d`. -/
def mSleep (s : MState) (d : Int) : MState :=
  { s with time := s.time + Max.max d 0 }

/-- The sleep performed at every retry site in `retry_client.go`: the
server-provided `RetryAfter` when the error is an `ErrorResponse` carrying
a positive one, else an `ExpBackoff` delay from the config's effective
parameters, consuming the next random draw. -/
def retrySleep (rc : RetryConfig) (env : Env) (err : B2Error) (attempt : Nat)
    (s : MState) : MState :=
  if isER err && retryAfterER err > 0 then
    mSleep s (retryAfterER err)
  else
    mSleep { s with draws := s.draws + 1 }
      (ExpBackoff attempt rc.getJitter rc.getMin rc.Max rc.getUnit (env.rands s.draws))

/-- `RetryClient.isTimeoutAndThenWait`: the non-blocking context check
first (a cancelled context yields `(true, true)` with no sleep), then the
timeout / 403-forbidden classification; a classified error within the
attempt bound sleeps and yields `(true, false)`, beyond the bound yields
`(true, true)` with no sleep; anything else yields `(false, false)`. -/
def isTimeoutAndThenWait (rc : RetryConfig) (env : Env) (err : B2Error)
    (attempts : Nat) (s : MState) : Bool × Bool × MState :=
  if ctxCancelled env s then (true, true, s)
  else if IsTimeoutErr err || isForbiddenER err then
    if attempts < rc.getMaxAttempts then (true, false, retrySleep rc env err attempts s)
    else (true, true, s)
  else (false, false, s)

/-- The shapes of results the retry layer returns to its caller. -/
inductive RetryOutcome where
  | ok
  | ctxError
  | tooManyAttempts (bound : Nat) (last : B2Error)
  | plainError (e : B2Error)
  | wrappedError (e : B2Error)
deriving Repr, DecidableEq

/-- The retry loop inside `AuthorizeIfNeeded`, entered when no token is
cached. The fuel bounds the number of iterations; a `none` result means the
loop was still running when the fuel ran out (the state records the
progress made). On success the `Client` caches the token. -/
def authorizeLoop (rc : RetryConfig) (env : Env) :
    Nat → Nat → MState → Option RetryOutcome × MState
  | 0, _, s => (none, s)
  | fuel + 1, retries, s =>
    let res := env.authRes s.authCalls
    let s1 := { s with authCalls := s.authCalls + 1 }
    match res with
    | none => (some .ok, { s1 with lastAuth := true })
    | some err =>
      let w := isTimeoutAndThenWait rc env err retries s1
      if w.1 then
        if w.2.1 then
          if ctxCancelled env w.2.2 then (some .ctxError, w.2.2)
          else (some (.tooManyAttempts rc.getMaxAttempts err), w.2.2)
        else authorizeLoop rc env fuel (retries + 1) w.2.2
      else (some (.plainError err), w.2.2)

/-- `RetryClient.AuthorizeIfNeeded`: returns at once when a token is
cached (`LastAuth() != nil`), otherwise runs the authorize retry loop with
its own fresh attempt counter. -/
def AuthorizeIfNeeded (rc : RetryConfig) (env : Env) (fuel : Nat) (s : MState) :
    Option RetryOutcome × MState :=
  if s.lastAuth then (some .ok, s) else authorizeLoop rc env fuel 0 s

/-- `RetryClient.genericRetryHandler`: authorize if needed, run `f`; on
failure classify through `isTimeoutAndThenWait`; a timeout/403 within the
bound loops, beyond the bound returns the attempts-exceeded (or context)
error; otherwise a 403 or expired-auth-token 401 sleeps, increments the
counter, invalidates the cached token and loops — with no bound check on
that path, exactly as in the source; any other error is returned
unchanged. -/
def genericRetryHandler (rc : RetryConfig) (env : Env) :
    Nat → Nat → MState → Option RetryOutcome × MState
  | 0, _, s => (none, s)
  | fuel + 1, retries, s =>
    let a := AuthorizeIfNeeded rc env (fuel + 1) s
    match a.1 with
    | none => (none, a.2)
    | some RetryOutcome.ok =>
      let s1 := a.2
      let res := env.fRes s1.fCalls
      let s2 := { s1 with fCalls := s1.fCalls + 1 }
      match res with
      | none => (some .ok, s2)
      | some err =>
        let w := isTimeoutAndThenWait rc env err retries s2
        if w.1 then
          if w.2.1 then
            if ctxCancelled env w.2.2 then (some .ctxError, w.2.2)
            else (some (.tooManyAttempts rc.getMaxAttempts err), w.2.2)
          else genericRetryHandler rc env fuel (retries + 1) w.2.2
        else if isForbiddenER err || isExpiredAuthER err then
          let s3 := retrySleep rc env err retries w.2.2
          genericRetryHandler rc env fuel (retries + 1)
            { s3 with lastAuth := false, invalidations := s3.invalidations + 1 }
        else (some (.plainError err), w.2.2)
    | some e => (some e, a.2)

/-- Result of the inner `GetUploadURL` loop of `UploadFile`: on success it
hands back the shared attempt counter for the rest of the iteration. -/
inductive UrlStep where
  | success (retries : Nat)
  | failure (e : RetryOutcome)
deriving Repr, DecidableEq

/-- The inner loop of `UploadFile` requesting an upload URL: retried
through `isTimeoutAndThenWait` under the shared attempt counter; a
non-retryable failure is returned wrapped. -/
def getUploadURLLoop (rc : RetryConfig) (env : Env) :
    Nat → Nat → MState → Option UrlStep × MState
  | 0, _, s => (none, s)
  | fuel + 1, retries, s =>
    let res := env.urlRes s.urlCalls
    let s1 := { s with urlCalls := s.urlCalls + 1 }
    match res with
    | none => (some (.success retries), s1)
    | some err =>
      let w := isTimeoutAndThenWait rc env err retries s1
      if w.1 then
        if w.2.1 then
          if ctxCancelled env w.2.2 then (some (.failure .ctxError), w.2.2)
          else (some (.failure (.tooManyAttempts rc.getMaxAttempts err)), w.2.2)
        else getUploadURLLoop rc env fuel (retries + 1) w.2.2
      else (some (.failure (.wrappedError err)), w.2.2)

/-- The retried upload-step failure classes of `UploadFile`
(`retry_client.go` lines 369–392): transport timeout, expired-auth 401,
HTTP 5xx, or unexpected end-of-stream. -/
def uploadRetryable (e : B2Error) : Bool :=
  IsTimeoutErr e || isExpiredAuthER e || is5xxER e || e == .unexpectedEOF

/-- `RetryClient.UploadFile`: each outer iteration authorizes if needed,
obtains an upload URL through the inner loop (sharing the attempt
counter), then attempts the upload. A retried upload failure increments
the counter, sleeps, and continues the outer loop — re-fetching the
upload URL, with no bound check on that path, exactly as in the source;
any other upload failure is returned wrapped. -/
def UploadFile (rc : RetryConfig) (env : Env) :
    Nat → Nat → MState → Option RetryOutcome × MState
  | 0, _, s => (none, s)
  | fuel + 1, retries, s =>
    let a := AuthorizeIfNeeded rc env (fuel + 1) s
    match a.1 with
    | none => (none, a.2)
    | some RetryOutcome.ok =>
      match getUploadURLLoop rc env (fuel + 1) retries a.2 with
      | (none, s1) => (none, s1)
      | (some (.failure e), s1) => (some e, s1)
      | (some (.success retries1), s1) =>
        let res := env.uploadRes s1.uploadCalls
        let s2 := { s1 with uploadCalls := s1.uploadCalls + 1 }
        match res with
        | none => (some .ok, s2)
        | some err =>
          if uploadRetryable err then
            UploadFile rc env fuel (retries1 + 1) (retrySleep rc env err (retries1 + 1) s2)
          else (some (.wrappedError err), s2)
    | some e => (some e, a.2)

/-- `retrySleep` changes only the clock and the draw counter. -/
@[simp] theorem retrySleep_lastAuth (rc : RetryConfig) (env : Env) (err : B2Error)
    (a : Nat) (s : MState) : (retrySleep rc env err a s).lastAuth = s.lastAuth := by
  unfold retrySleep mSleep
  split <;> rfl

/-- `retrySleep` preserves the authorize-call counter. -/
@[simp] theorem retrySleep_authCalls (rc : RetryConfig) (env : Env) (err : B2Error)
    (a : Nat) (s : MState) : (retrySleep rc env err a s).authCalls = s.authCalls := by
  unfold retrySleep mSleep
  split <;> rfl

/-- `retrySleep` preserves the operation-call counter. -/
@[simp] theorem retrySleep_fCalls (rc : RetryConfig) (env : Env) (err : B2Error)
    (a : Nat) (s : MState) : (retrySleep rc env err a s).fCalls = s.fCalls := by
  unfold retrySleep mSleep
  split <;> rfl

/-- `retrySleep` preserves the upload-URL-call counter. -/
@[simp] theorem retrySleep_urlCalls (rc : RetryConfig) (env : Env) (err : B2Error)
    (a : Nat) (s : MState) : (retrySleep rc env err a s).urlCalls = s.urlCalls := by
  unfold retrySleep mSleep
  split <;> rfl

/-- `retrySleep` preserves the upload-call counter. -/
@[simp] theorem retrySleep_uploadCalls (rc : RetryConfig) (env : Env) (err : B2Error)
    (a : Nat) (s : MState) : (retrySleep rc env err a s).uploadCalls = s.uploadCalls := by
  unfold retrySleep mSleep
  split <;> rfl

/-- `retrySleep` preserves the invalidation counter. -/
@[simp] theorem retrySleep_invalidations (rc : RetryConfig) (env : Env) (err : B2Error)
    (a : Nat) (s : MState) : (retrySleep rc env err a s).invalidations = s.invalidations := by
  unfold retrySleep mSleep
  split <;> rfl

/-- A state at the start of a logical call, with an auth token cached. -/
def s0 : MState := ⟨0, true, 0, 0, 0, 0, 0, 0⟩

/-- A retry configuration with `MaxAttempts = 3` and every other knob at
its documented default (zero value). -/
def rc1 : RetryConfig := ⟨3, 0, 0, 0, 0⟩

/-- Every upload-step attempt fails with HTTP 503; authorization and
`GetUploadURL` always succeed; the context is never cancelled. -/
def env5xx : Env :=
  ⟨fun _ => none, fun _ => none, fun _ => none,
   fun _ => some (.errorResponse 503 "service_unavailable" 0), fun _ => 0, none⟩

/-- Every operation attempt fails with an expired-auth-token 401;
authorization always succeeds; the context is never cancelled. -/
def envExpired : Env :=
  ⟨fun _ => none, fun _ => some (.errorResponse 401 "expired_auth_token" 0),
   fun _ => none, fun _ => none, fun _ => 0, none⟩

/-- The first upload-step attempt fails with `e`, later ones succeed; all
other collaborators always succeed; the context is never cancelled. -/
def envUpOnce (e : B2Error) : Env :=
  ⟨fun _ => none, fun _ => none, fun _ => none,
   fun i => if i = 0 then some e else none, fun _ => 0, none⟩

/-- The first operation attempt fails with HTTP 403, later ones succeed;
authorization always succeeds; the context is never cancelled. -/
def envF403 : Env :=
  ⟨fun _ => none, fun i => if i = 0 then some (.errorResponse 403 "forbidden" 0) else none,
   fun _ => none, fun _ => none, fun _ => 0, none⟩

/-- Every operation attempt fails with a transport timeout, and the
caller's context is cancelled at time 5 — strictly inside the first
backoff sleep. -/
def envCancelMidSleep : Env :=
  ⟨fun _ => none, fun _ => some .transportTimeout, fun _ => none, fun _ => none,
   fun _ => 0, some 5⟩

/-- C1 (refutation at a concrete input): with `maxAttempts = 3` and an
upload step that always fails with HTTP 503, `UploadFile` is still running
after four full iterations — it has performed 4 upload attempts, one more
than the claimed bound of exactly 3, and has returned no attempts-exceeded
error. -/
theorem uploadFile_5xx_fourth_attempt :
    (UploadFile rc1 env5xx 4 0 s0).1 = none ∧
      (UploadFile rc1 env5xx 4 0 s0).2.uploadCalls = 4 := by
  constructor
  · decide
  · decide

/-- C1 (amended): with `maxAttempts = 3` and an upload step that always
fails with HTTP 5xx, `UploadFile` never returns at all: every iteration
performs one more upload attempt (after `fuel` iterations, exactly `fuel`
upload attempts have been made from any starting state) and no
attempts-exceeded error is ever produced — the attempt counter is
incremented on the upload-retry path but never compared against
`maxAttempts` there. -/
theorem uploadFile_5xx_unbounded :
    ∀ (fuel retries : Nat) (s : MState),
      (UploadFile rc1 env5xx fuel retries s).1 = none ∧
      (UploadFile rc1 env5xx fuel retries s).2.uploadCalls = s.uploadCalls + fuel := by
  have hAuth : ∀ i, env5xx.authRes i = none := fun _ => rfl
  have hUrl : ∀ i, env5xx.urlRes i = none := fun _ => rfl
  have hUp : ∀ i, env5xx.uploadRes i =
      some (.errorResponse 503 "service_unavailable" 0) := fun _ => rfl
  have hCancel : ∀ s, ctxCancelled env5xx s = false := fun _ => rfl
  intro fuel
  induction fuel with
  | zero => intro retries s; exact ⟨rfl, rfl⟩
  | succ f ih =>
    intro retries s
    by_cases hla : s.lastAuth
    · simp only [UploadFile, AuthorizeIfNeeded, getUploadURLLoop, hla, if_true,
        hAuth, hUrl, hUp]
      refine ⟨(ih _ _).1, Eq.trans ((ih _ _).2) ?_⟩
      simp only [retrySleep_uploadCalls]
      omega
    · simp only [Bool.not_eq_true] at hla
      simp only [UploadFile, AuthorizeIfNeeded, authorizeLoop, getUploadURLLoop, hla,
        if_false, Bool.false_eq_true, hAuth, hUrl, hUp]
      refine ⟨(ih _ _).1, Eq.trans ((ih _ _).2) ?_⟩
      simp only [retrySleep_uploadCalls]
      omega

/-- C2 (refutation at a concrete input): with `maxAttempts = 3` and an
operation that always fails with an expired-auth-token 401, the generic
retry handler is still running after five iterations — five operation
attempts and five token invalidations, with no attempts-exceeded error. -/
theorem genericRetryHandler_expired_sixth_iteration :
    (genericRetryHandler rc1 envExpired 5 0 s0).1 = none ∧
      (genericRetryHandler rc1 envExpired 5 0 s0).2.fCalls = 5 ∧
      (genericRetryHandler rc1 envExpired 5 0 s0).2.invalidations = 5 := by
  refine ⟨?_, ?_, ?_⟩ <;> decide

/-- C2 (amended): when the operation always fails with an expired-auth
401, the generic retry handler retries forever — each iteration invalidates
the cached token and re-runs the operation (after `fuel` iterations,
exactly `fuel` operation calls and `fuel` invalidations from any starting
state), and no attempts-exceeded error is ever returned: the
expired-auth path increments the attempt counter but never compares it
against `maxAttempts`. -/
theorem genericRetryHandler_expired_unbounded :
    ∀ (fuel retries : Nat) (s : MState),
      (genericRetryHandler rc1 envExpired fuel retries s).1 = none ∧
      (genericRetryHandler rc1 envExpired fuel retries s).2.fCalls = s.fCalls + fuel ∧
      (genericRetryHandler rc1 envExpired fuel retries s).2.invalidations =
        s.invalidations + fuel := by
  have hAuth : ∀ i, envExpired.authRes i = none := fun _ => rfl
  have hF : ∀ i, envExpired.fRes i =
      some (.errorResponse 401 "expired_auth_token" 0) := fun _ => rfl
  have hCancel : ∀ s, ctxCancelled envExpired s = false := fun _ => rfl
  have hW : ∀ (a : Nat) (s : MState),
      isTimeoutAndThenWait rc1 envExpired (.errorResponse 401 "expired_auth_token" 0) a s
        = (false, false, s) := by
    intro a s
    simp [isTimeoutAndThenWait, hCancel, IsTimeoutErr, isForbiddenER]
  intro fuel
  induction fuel with
  | zero => intro retries s; exact ⟨rfl, rfl, rfl⟩
  | succ f ih =>
    intro retries s
    by_cases hla : s.lastAuth
    · simp only [genericRetryHandler, AuthorizeIfNeeded, hla, if_true, hAuth, hF, hW]
      simp only [Bool.false_eq_true, if_false, isForbiddenER, isExpiredAuthER]
      simp only [Nat.reduceBEq]
      refine ⟨(ih _ _).1, Eq.trans ((ih _ _).2.1) ?_, Eq.trans ((ih _ _).2.2) ?_⟩
      · simp only [retrySleep_fCalls]
        omega
      · simp only [retrySleep_invalidations]
        omega
    · simp only [Bool.not_eq_true] at hla
      simp only [genericRetryHandler, AuthorizeIfNeeded, authorizeLoop, hla,
        if_false, Bool.false_eq_true, hAuth, hF, hW]
      simp only [isForbiddenER, isExpiredAuthER]
      refine ⟨(ih _ _).1, Eq.trans ((ih _ _).2.1) ?_, Eq.trans ((ih _ _).2.2) ?_⟩
      · simp only [retrySleep_fCalls]
        omega
      · simp only [retrySleep_invalidations]
        omega

/-- C6 (refutation at a concrete input): an upload step failing with a
transport timeout — which is not an expired-auth 401, not a 5xx, and not an
unexpected end-of-stream — is nevertheless retried at a freshly fetched
upload endpoint: `GetUploadURL` is called twice, refuting the claim that
every such failure retries at the same endpoint without re-fetching it. -/
theorem uploadFile_timeout_refetches_url :
    (UploadFile rc1 (envUpOnce .transportTimeout) 3 0 s0).1 = some .ok ∧
      (UploadFile rc1 (envUpOnce .transportTimeout) 3 0 s0).2.urlCalls = 2 ∧
      (UploadFile rc1 (envUpOnce .transportTimeout) 3 0 s0).2.uploadCalls = 2 := by
  refine ⟨?_, ?_, ?_⟩ <;> decide

/-- C6 (amended): every retried upload-step failure — transport timeout,
expired-auth 401, HTTP 5xx, or unexpected end-of-stream — causes a fresh
`GetUploadURL` fetch before the next upload attempt (there is no
same-endpoint retry path), and exactly those four classes are retried:
any other upload-step failure is returned wrapped with no second attempt
and no second endpoint fetch. -/
theorem uploadFile_retry_always_refetches_url (e : B2Error) :
    (uploadRetryable e = true →
      (UploadFile rc1 (envUpOnce e) 3 0 s0).1 = some .ok ∧
      (UploadFile rc1 (envUpOnce e) 3 0 s0).2.urlCalls = 2 ∧
      (UploadFile rc1 (envUpOnce e) 3 0 s0).2.uploadCalls = 2) ∧
    (uploadRetryable e = false →
      (UploadFile rc1 (envUpOnce e) 3 0 s0).1 = some (.wrappedError e) ∧
      (UploadFile rc1 (envUpOnce e) 3 0 s0).2.urlCalls = 1 ∧
      (UploadFile rc1 (envUpOnce e) 3 0 s0).2.uploadCalls = 1) := by
  constructor
  · intro h
    simp [UploadFile, AuthorizeIfNeeded, getUploadURLLoop, envUpOnce, s0, h]
  · intro h
    simp [UploadFile, AuthorizeIfNeeded, getUploadURLLoop, envUpOnce, s0, h]

/-- Witness for C6 (amended) at a retried failure (transport timeout) and
at a non-retried one (an unclassified error). -/
theorem uploadFile_retry_always_refetches_url_witness :
    ((UploadFile rc1 (envUpOnce .transportTimeout) 3 0 s0).1 = some .ok ∧
      (UploadFile rc1 (envUpOnce .transportTimeout) 3 0 s0).2.urlCalls = 2 ∧
      (UploadFile rc1 (envUpOnce .transportTimeout) 3 0 s0).2.uploadCalls = 2) ∧
    ((UploadFile rc1 (envUpOnce .otherError) 3 0 s0).1 =
        some (.wrappedError .otherError) ∧
      (UploadFile rc1 (envUpOnce .otherError) 3 0 s0).2.urlCalls = 1 ∧
      (UploadFile rc1 (envUpOnce .otherError) 3 0 s0).2.uploadCalls = 1) :=
  ⟨(uploadFile_retry_always_refetches_url .transportTimeout).1 (by decide),
   (uploadFile_retry_always_refetches_url .otherError).2 (by decide)⟩

/-- C8 (refutation at a concrete input): an upload-step attempt failing
with an HTTP 403 `ErrorResponse` is returned to the caller wrapped, after a
single upload attempt, with no sleep (the clock never advances) and no
retry — even though the bound of 3 attempts is not exhausted and the
context is never cancelled. -/
theorem uploadFile_403_returned_immediately :
    (UploadFile rc1 (envUpOnce (.errorResponse 403 "cap_exceeded" 0)) 5 0 s0).1 =
        some (.wrappedError (.errorResponse 403 "cap_exceeded" 0)) ∧
      (UploadFile rc1 (envUpOnce (.errorResponse 403 "cap_exceeded" 0)) 5 0 s0).2.uploadCalls
        = 1 ∧
      (UploadFile rc1 (envUpOnce (.errorResponse 403 "cap_exceeded" 0)) 5 0 s0).2.time
        = 0 := by
  refine ⟨?_, ?_, ?_⟩ <;> decide

/-- C8 (amended): an HTTP 403 failure is classified retryable wherever
`isTimeoutAndThenWait` is consulted — the generic operations, the
authorize phase, and the `GetUploadURL` phase — so that within the attempt
bound with an uncancelled context it sleeps and retries (shown in general
at the classifier and end-to-end on the generic handler, which retries a
403 and succeeds on the second attempt after one backoff draw); but the
upload step of `UploadFile` does not consult it: an upload-step 403 is
returned to the caller immediately. -/
theorem forbidden_retryable_except_upload_step :
    (∀ (rc : RetryConfig) (env : Env) (err : B2Error) (retries : Nat) (s : MState),
        isForbiddenER err = true → ctxCancelled env s = false →
        retries < rc.getMaxAttempts →
        isTimeoutAndThenWait rc env err retries s =
          (true, false, retrySleep rc env err retries s)) ∧
    ((genericRetryHandler rc1 envF403 3 0 s0).1 = some .ok ∧
      (genericRetryHandler rc1 envF403 3 0 s0).2.fCalls = 2 ∧
      (genericRetryHandler rc1 envF403 3 0 s0).2.draws = 1 ∧
      (0 : Int) < (genericRetryHandler rc1 envF403 3 0 s0).2.time) ∧
    ((UploadFile rc1 (envUpOnce (.errorResponse 403 "forbidden" 0)) 3 0 s0).1 =
        some (.wrappedError (.errorResponse 403 "forbidden" 0)) ∧
      (UploadFile rc1 (envUpOnce (.errorResponse 403 "forbidden" 0)) 3 0 s0).2.uploadCalls
        = 1) := by
  refine ⟨?_, ⟨by decide, by decide, by decide, by decide⟩, by decide, by decide⟩
  intro rc env err retries s hforb hcanc hlt
  simp [isTimeoutAndThenWait, hcanc, hforb, hlt]

/-- Witness for C8 (amended): the classifier conjunct applied to a 403 at
attempt 0 with an uncancelled context. -/
theorem forbidden_retryable_except_upload_step_witness :
    isTimeoutAndThenWait rc1 envF403 (.errorResponse 403 "forbidden" 0) 0 s0 =
      (true, false, retrySleep rc1 envF403 (.errorResponse 403 "forbidden" 0) 0 s0) :=
  forbidden_retryable_except_upload_step.1 rc1 envF403 (.errorResponse 403 "forbidden" 0)
    0 s0 (by decide) (by decide) (by decide)

/-- C9 (refutation at a concrete input): with the context cancelled at
time 5 — strictly inside the first backoff sleep, which spans from time 0
to time `ExpBackoff 0 … = 1000000001000000000` — the generic retry handler
does not abort mid-sleep: the clock advances by the full scheduled delay,
one further operation attempt is issued (two operation calls in total),
and only then is the cancellation-kind error returned. -/
theorem cancellation_mid_sleep_not_immediate :
    (genericRetryHandler rc1 envCancelMidSleep 5 0 s0).1 = some .ctxError ∧
      (genericRetryHandler rc1 envCancelMidSleep 5 0 s0).2.fCalls = 2 ∧
      (genericRetryHandler rc1 envCancelMidSleep 5 0 s0).2.time =
        ExpBackoff 0 rc1.getJitter rc1.getMin rc1.Max rc1.getUnit 0 ∧
      envCancelMidSleep.cancelAt = some 5 ∧
      (0 : Int) < 5 ∧
      (5 : Int) < ExpBackoff 0 rc1.getJitter rc1.getMin rc1.Max rc1.getUnit 0 := by
  refine ⟨?_, ?_, ?_, ?_, ?_, ?_⟩ <;> decide

/-- C9 (amended): a cancellation already observable when the failure is
classified aborts the loop with no sleep at all: `isTimeoutAndThenWait`
returns immediately with the state (and so the clock) unchanged, and the
generic retry handler returns the cancellation-kind error having made no
further sleep and no further operation attempt beyond the one that just
failed. (A cancellation arriving strictly during a sleep, by contrast, does
not interrupt it — see the accompanying refutation.) -/
theorem cancellation_before_sleep_aborts :
    (∀ (rc : RetryConfig) (env : Env) (err : B2Error) (retries : Nat) (s : MState),
        ctxCancelled env s = true →
        isTimeoutAndThenWait rc env err retries s = (true, true, s)) ∧
    (∀ (rc : RetryConfig) (env : Env) (fuel retries : Nat) (s : MState) (e : B2Error),
        ctxCancelled env s = true → s.lastAuth = true → env.fRes s.fCalls = some e →
        genericRetryHandler rc env (fuel + 1) retries s =
          (some .ctxError, { s with fCalls := s.fCalls + 1 })) := by
  constructor
  · intro rc env err retries s hc
    simp [isTimeoutAndThenWait, hc]
  · intro rc env fuel retries s e hc hla hf
    have hc2 : ∀ (b : Bool) (a c d g i j : Nat),
        ctxCancelled env ⟨s.time, b, a, c, d, g, i, j⟩ = true := by
      intro b a c d g i j
      have heq : ctxCancelled env ⟨s.time, b, a, c, d, g, i, j⟩ = ctxCancelled env s := rfl
      exact heq.trans hc
    simp only [genericRetryHandler, AuthorizeIfNeeded, hla, if_true, hf]
    simp [isTimeoutAndThenWait, hc2]

/-- The environment whose context is already cancelled at time 0 and whose
operation fails with an unclassified error. -/
def envCancelledNow : Env :=
  ⟨fun _ => none, fun _ => some .otherError, fun _ => none, fun _ => none,
   fun _ => 0, some 0⟩

/-- Witness for C9 (amended) on a context already cancelled at the start. -/
theorem cancellation_before_sleep_aborts_witness :
    isTimeoutAndThenWait rc1 envCancelledNow .otherError 0 s0 = (true, true, s0) ∧
    genericRetryHandler rc1 envCancelledNow 1 0 s0 =
      (some .ctxError, { s0 with fCalls := s0.fCalls + 1 }) :=
  ⟨cancellation_before_sleep_aborts.1 rc1 envCancelledNow .otherError 0 s0 (by decide),
   cancellation_before_sleep_aborts.2 rc1 envCancelledNow 0 0 s0 .otherError
     (by decide) (by decide) (by decide)⟩

end B2
